import Mathlib

/-
Verification of the SPIRV-Cross binding veneer (src/spirv_cross/src/compiler.rs).

The file shallowly embeds the veneer.  The engine behind the FFI boundary is
modelled as an input: every engine call that produces data is represented by an
"Except ErrorCode data" value handed to the embedded function (an ".error e"
input models the engine reporting a failing status code, which the check! macro
of the crate turns into an early return of that error).  Engine-owned heap
buffers are given abstract identities and each embedded operation additionally
returns the ordered trace of sc_internal_free_pointer calls it issued, so that
release-exactly-once properties become statements about that trace.
sc_internal_free_pointer itself is modelled as always succeeding.

C strings coming from the engine are modelled as their byte contents (the bytes
before the terminating NUL); Rust's CString::into_string succeeds exactly when
those bytes are well-formed UTF-8, which validUtf8 below implements, and the
resulting String has exactly those bytes, so a decoded string is modelled by
the byte list itself.
-/

namespace SpirvCross

/-- Error type of the crate (crate root): a coarse catch-all Unhandled plus a
compilation-message error; the veneer in compiler.rs only ever produces
Unhandled. -/
inductive ErrorCode where
  | Unhandled : ErrorCode
  | CompilationError : List Nat → ErrorCode
deriving DecidableEq

/-- A UTF-8 continuation byte, 0x80 to 0xBF. -/
def isCont (b : Nat) : Bool := decide (0x80 ≤ b ∧ b ≤ 0xBF)

/-- Well-formedness of a byte sequence as UTF-8, as checked by Rust's
CString::into_string (RFC 3629: no overlong forms, no surrogates, no code
points above U+10FFFF). -/
def validUtf8 : List Nat → Bool
  | [] => true
  | b :: rest =>
    if b ≤ 0x7F then validUtf8 rest
    else if 0xC2 ≤ b ∧ b ≤ 0xDF then
      match rest with
      | b1 :: rest2 => isCont b1 && validUtf8 rest2
      | [] => false
    else if b = 0xE0 then
      match rest with
      | b1 :: b2 :: rest2 =>
        decide (0xA0 ≤ b1 ∧ b1 ≤ 0xBF) && isCont b2 && validUtf8 rest2
      | _ => false
    else if (0xE1 ≤ b ∧ b ≤ 0xEC) ∨ b = 0xEE ∨ b = 0xEF then
      match rest with
      | b1 :: b2 :: rest2 => isCont b1 && isCont b2 && validUtf8 rest2
      | _ => false
    else if b = 0xED then
      match rest with
      | b1 :: b2 :: rest2 =>
        decide (0x80 ≤ b1 ∧ b1 ≤ 0x9F) && isCont b2 && validUtf8 rest2
      | _ => false
    else if b = 0xF0 then
      match rest with
      | b1 :: b2 :: b3 :: rest2 =>
        decide (0x90 ≤ b1 ∧ b1 ≤ 0xBF) && isCont b2 && isCont b3 && validUtf8 rest2
      | _ => false
    else if 0xF1 ≤ b ∧ b ≤ 0xF3 then
      match rest with
      | b1 :: b2 :: b3 :: rest2 =>
        isCont b1 && isCont b2 && isCont b3 && validUtf8 rest2
      | _ => false
    else if b = 0xF4 then
      match rest with
      | b1 :: b2 :: b3 :: rest2 =>
        decide (0x80 ≤ b1 ∧ b1 ≤ 0x8F) && isCont b2 && isCont b3 && validUtf8 rest2
      | _ => false
    else false

/-- Public execution-model enum (spirv::ExecutionModel), compiler.rs lines 11-40. -/
inductive ExecutionModel where
  | Vertex
  | TessellationControl
  | TessellationEvaluation
  | Geometry
  | Fragment
  | GlCompute
  | Kernel
deriving DecidableEq

/-- Engine-side spv::ExecutionModel values are modelled by their SPIR-V
numbering (Vertex = 0 ... Kernel = 6; the engine enum has further variants,
all mapped to the default arm).  compiler.rs lines 12-25: the seven recognized
variants convert, anything else is Unhandled. -/
def ExecutionModel.from_raw (raw : Nat) : Except ErrorCode ExecutionModel :=
  if raw = 0 then .ok .Vertex
  else if raw = 1 then .ok .TessellationControl
  else if raw = 2 then .ok .TessellationEvaluation
  else if raw = 3 then .ok .Geometry
  else if raw = 4 then .ok .Fragment
  else if raw = 5 then .ok .GlCompute
  else if raw = 6 then .ok .Kernel
  else .error ErrorCode.Unhandled

/-- compiler.rs lines 27-39: total map from the public enum to the engine
numbering. -/
def ExecutionModel.as_raw : ExecutionModel → Nat
  | .Vertex => 0
  | .TessellationControl => 1
  | .TessellationEvaluation => 2
  | .Geometry => 3
  | .Fragment => 4
  | .GlCompute => 5
  | .Kernel => 6

/-- Compiler::compile, compiler.rs lines 104-118.  Input: the engine result of
sc_internal_compiler_compile (error status, or the bytes of the emitted
C string).  Output: the call's result together with the number of
sc_internal_free_pointer calls issued on the shader buffer. -/
def compile (engine : Except ErrorCode (List Nat)) :
    Except ErrorCode (List Nat) × Nat :=
  match engine with
  | .error e => (.error e, 0)
  | .ok shaderBytes =>
    if validUtf8 shaderBytes then (.ok shaderBytes, 1)
    else (.error ErrorCode.Unhandled, 0)

/-- spirv::WorkGroupSize. -/
structure WorkGroupSize where
  x : Nat
  y : Nat
  z : Nat
deriving DecidableEq

/-- spirv::EntryPoint as built by get_entry_points. -/
structure EntryPoint where
  name : List Nat
  execution_model : ExecutionModel
  work_group_size : WorkGroupSize
deriving DecidableEq

/-- One element of the raw entry-point array returned by
sc_internal_compiler_get_entry_points: the bytes of the engine-allocated name
string, the raw execution model, and the work-group sizes. -/
structure RawEntryPoint where
  nameBytes : List Nat
  execution_model : Nat
  work_group_size_x : Nat
  work_group_size_y : Nat
  work_group_size_z : Nat
deriving DecidableEq

/-- Engine allocations touched by get_entry_points: the name buffer of element
i, and the pointer entry_points_raw.offset(i) (offset 0 being the enclosing
array buffer itself). -/
inductive EpPtr where
  | name : Nat → EpPtr
  | elem : Nat → EpPtr
deriving DecidableEq

/-- The per-element closure of get_entry_points (compiler.rs lines 163-192):
decode the name (early Err on invalid UTF-8, nothing freed), convert the
execution model via try! (early Err, nothing freed), then free the name buffer
and the element pointer and yield the converted entry point. -/
def convertEntryPoint (i : Nat) (r : RawEntryPoint) :
    Except ErrorCode (EntryPoint × List EpPtr) :=
  if validUtf8 r.nameBytes then
    match ExecutionModel.from_raw r.execution_model with
    | .error e => .error e
    | .ok m =>
      .ok ({ name := r.nameBytes, execution_model := m,
             work_group_size := { x := r.work_group_size_x,
                                  y := r.work_group_size_y,
                                  z := r.work_group_size_z } },
           [EpPtr.name i, EpPtr.elem i])
  else .error ErrorCode.Unhandled

/-- The map-then-collect of compiler.rs lines 162-193.  Rust's
collect over Result is short-circuiting and the map is lazy, so once an
element fails no later element is visited (and none of its frees happen). -/
def collectEntryPoints : Nat → List RawEntryPoint →
    Except ErrorCode (List EntryPoint) × List EpPtr
  | _, [] => (.ok [], [])
  | i, r :: rest =>
    match convertEntryPoint i r with
    | .error e => (.error e, [])
    | .ok (ep, fs) =>
      match collectEntryPoints (i + 1) rest with
      | (.error e, fs2) => (.error e, fs ++ fs2)
      | (.ok eps, fs2) => (.ok (ep :: eps), fs ++ fs2)

/-- Compiler::get_entry_points, compiler.rs lines 151-197.  Input: the engine
result of sc_internal_compiler_get_entry_points (error status, or the raw
array contents).  Output: the call's result and the trace of
sc_internal_free_pointer calls. -/
def get_entry_points (engine : Except ErrorCode (List RawEntryPoint)) :
    Except ErrorCode (List EntryPoint) × List EpPtr :=
  match engine with
  | .error e => (.error e, [])
  | .ok raws => collectEntryPoints 0 raws

/-- One element of a raw ScResource array: id, type_id, base_type_id, and the
bytes of the engine-allocated name string. -/
structure RawResource where
  id : Nat
  type_id : Nat
  base_type_id : Nat
  nameBytes : List Nat
deriving DecidableEq

/-- spirv::Resource as built by get_shader_resources. -/
structure Resource where
  id : Nat
  type_id : Nat
  base_type_id : Nat
  name : List Nat
deriving DecidableEq

/-- The raw ScShaderResources value: eleven (data, num) arrays, each modelled
as the list of its num elements, in the fixed field order of the struct. -/
structure RawShaderResources where
  uniform_buffers : List RawResource
  storage_buffers : List RawResource
  stage_inputs : List RawResource
  stage_outputs : List RawResource
  subpass_inputs : List RawResource
  storage_images : List RawResource
  sampled_images : List RawResource
  atomic_counters : List RawResource
  push_constant_buffers : List RawResource
  separate_images : List RawResource
  separate_samplers : List RawResource
deriving DecidableEq

/-- spirv::ShaderResources. -/
structure ShaderResources where
  uniform_buffers : List Resource
  storage_buffers : List Resource
  stage_inputs : List Resource
  stage_outputs : List Resource
  subpass_inputs : List Resource
  storage_images : List Resource
  sampled_images : List Resource
  atomic_counters : List Resource
  push_constant_buffers : List Resource
  separate_images : List Resource
  separate_samplers : List Resource
deriving DecidableEq

/-- Engine allocations touched by get_shader_resources: the name buffer of
element i of category cat, and the array buffer (the data field) of category
cat.  Categories are numbered 0..10 in the order the code converts them. -/
inductive RPtr where
  | name : Nat → Nat → RPtr
  | array : Nat → RPtr
deriving DecidableEq

/-- Category number of a release call. -/
def rptrCat : RPtr → Nat
  | .name c _ => c
  | .array c => c

/-- The field copy performed for one successfully converted resource
(compiler.rs lines 220-225): id, type_id, base_type_id copied unchanged, name
is the decoded string. -/
def convRes (r : RawResource) : Resource :=
  { id := r.id, type_id := r.type_id, base_type_id := r.base_type_id,
    name := r.nameBytes }

/-- The per-element body of fill_resources (compiler.rs lines 211-226): decode
the name (early Err on invalid UTF-8, nothing freed), free the name buffer,
yield the converted resource. -/
def convertResource (cat i : Nat) (r : RawResource) :
    Except ErrorCode (Resource × List RPtr) :=
  if validUtf8 r.nameBytes then .ok (convRes r, [RPtr.name cat i])
  else .error ErrorCode.Unhandled

/-- The iter-map-collect of fill_resources (compiler.rs lines 209-227);
short-circuits at the first failing element, so later elements are not
visited and their name buffers are not freed. -/
def collectResources : Nat → Nat → List RawResource →
    Except ErrorCode (List Resource) × List RPtr
  | _, _, [] => (.ok [], [])
  | cat, i, r :: rest =>
    match convertResource cat i r with
    | .error e => (.error e, [])
    | .ok (res, fs) =>
      match collectResources cat (i + 1) rest with
      | (.error e, fs2) => (.error e, fs ++ fs2)
      | (.ok out, fs2) => (.ok (res :: out), fs ++ fs2)

/-- fill_resources (compiler.rs lines 207-232): convert the elements, then
free the category's array buffer unconditionally (the free of array_raw.data
at line 229 runs whether or not the collect at line 227 produced an error),
and return the collect result. -/
def fillResources (cat : Nat) (raws : List RawResource) :
    Except ErrorCode (List Resource) × List RPtr :=
  ((collectResources cat 0 raws).1,
   (collectResources cat 0 raws).2 ++ [RPtr.array cat])

/-- Does some element of a category have a name that is not valid UTF-8 (the
only way a category conversion can fail)? -/
def convFails (raws : List RawResource) : Bool :=
  raws.any (fun r => !validUtf8 r.nameBytes)

/-- Compiler::get_shader_resources, compiler.rs lines 199-261.  Input: the
engine result of sc_internal_compiler_get_shader_resources.  The eleven
categories are converted in the fixed source order, each behind the question
mark operator, so the first failing category aborts the call; the trace
accumulates the frees issued so far. -/
def get_shader_resources (engine : Except ErrorCode RawShaderResources) :
    Except ErrorCode ShaderResources × List RPtr :=
  match engine with
  | .error e => (.error e, [])
  | .ok raw =>
    match fillResources 0 raw.uniform_buffers with
    | (.error e, f0) => (.error e, f0)
    | (.ok uniform_buffers, f0) =>
      match fillResources 1 raw.storage_buffers with
      | (.error e, f1) => (.error e, f0 ++ f1)
      | (.ok storage_buffers, f1) =>
        match fillResources 2 raw.stage_inputs with
        | (.error e, f2) => (.error e, f0 ++ f1 ++ f2)
        | (.ok stage_inputs, f2) =>
          match fillResources 3 raw.stage_outputs with
          | (.error e, f3) => (.error e, f0 ++ f1 ++ f2 ++ f3)
          | (.ok stage_outputs, f3) =>
            match fillResources 4 raw.subpass_inputs with
            | (.error e, f4) => (.error e, f0 ++ f1 ++ f2 ++ f3 ++ f4)
            | (.ok subpass_inputs, f4) =>
              match fillResources 5 raw.storage_images with
              | (.error e, f5) => (.error e, f0 ++ f1 ++ f2 ++ f3 ++ f4 ++ f5)
              | (.ok storage_images, f5) =>
                match fillResources 6 raw.sampled_images with
                | (.error e, f6) =>
                  (.error e, f0 ++ f1 ++ f2 ++ f3 ++ f4 ++ f5 ++ f6)
                | (.ok sampled_images, f6) =>
                  match fillResources 7 raw.atomic_counters with
                  | (.error e, f7) =>
                    (.error e, f0 ++ f1 ++ f2 ++ f3 ++ f4 ++ f5 ++ f6 ++ f7)
                  | (.ok atomic_counters, f7) =>
                    match fillResources 8 raw.push_constant_buffers with
                    | (.error e, f8) =>
                      (.error e,
                       f0 ++ f1 ++ f2 ++ f3 ++ f4 ++ f5 ++ f6 ++ f7 ++ f8)
                    | (.ok push_constant_buffers, f8) =>
                      match fillResources 9 raw.separate_images with
                      | (.error e, f9) =>
                        (.error e,
                         f0 ++ f1 ++ f2 ++ f3 ++ f4 ++ f5 ++ f6 ++ f7 ++ f8 ++ f9)
                      | (.ok separate_images, f9) =>
                        match fillResources 10 raw.separate_samplers with
                        | (.error e, f10) =>
                          (.error e,
                           f0 ++ f1 ++ f2 ++ f3 ++ f4 ++ f5 ++ f6 ++ f7 ++ f8 ++
                             f9 ++ f10)
                        | (.ok separate_samplers, f10) =>
                          (.ok { uniform_buffers, storage_buffers, stage_inputs,
                                 stage_outputs, subpass_inputs, storage_images,
                                 sampled_images, atomic_counters,
                                 push_constant_buffers, separate_images,
                                 separate_samplers },
                           f0 ++ f1 ++ f2 ++ f3 ++ f4 ++ f5 ++ f6 ++ f7 ++ f8 ++
                             f9 ++ f10)

/-- The eleven raw categories in source conversion order. -/
def categories (raw : RawShaderResources) : List (List RawResource) :=
  [raw.uniform_buffers, raw.storage_buffers, raw.stage_inputs,
   raw.stage_outputs, raw.subpass_inputs, raw.storage_images,
   raw.sampled_images, raw.atomic_counters, raw.push_constant_buffers,
   raw.separate_images, raw.separate_samplers]

/-- Category number k of the raw input, k < 11. -/
def category (raw : RawShaderResources) (k : Nat) : List RawResource :=
  (categories raw).getD k []

/-- Sequential category conversion: run fillResources on each category in
order starting at category number c, short-circuiting on the first error, and
accumulate the release trace.  Helper used to reason uniformly about the
eleven-fold chain in get_shader_resources. -/
def fillAll : Nat → List (List RawResource) →
    Except ErrorCode (List (List Resource)) × List RPtr
  | _, [] => (.ok [], [])
  | c, l :: ls =>
    match fillResources c l with
    | (.error e, f) => (.error e, f)
    | (.ok rs, f) =>
      match fillAll (c + 1) ls with
      | (.error e, f2) => (.error e, f ++ f2)
      | (.ok rss, f2) => (.ok (rs :: rss), f ++ f2)

/-- Rebuild the ShaderResources structure from the eleven converted category
lists. -/
def mkSR : List (List Resource) → ShaderResources
  | [c0, c1, c2, c3, c4, c5, c6, c7, c8, c9, c10] =>
    { uniform_buffers := c0, storage_buffers := c1, stage_inputs := c2,
      stage_outputs := c3, subpass_inputs := c4, storage_images := c5,
      sampled_images := c6, atomic_counters := c7,
      push_constant_buffers := c8, separate_images := c9,
      separate_samplers := c10 }
  | _ =>
    { uniform_buffers := [], storage_buffers := [], stage_inputs := [],
      stage_outputs := [], subpass_inputs := [], storage_images := [],
      sampled_images := [], atomic_counters := [],
      push_constant_buffers := [], separate_images := [],
      separate_samplers := [] }

/-- spirv::Decoration, the public decoration-kind enum; compiler.rs lines
42-96 map each variant to the corresponding engine spv::Decoration variant
(a total injective map, so the engine store may equivalently be keyed on the
public enum). -/
inductive Decoration where
  | RelaxedPrecision
  | SpecId
  | Block
  | BufferBlock
  | RowMajor
  | ColMajor
  | ArrayStride
  | MatrixStride
  | GlslShared
  | GlslPacked
  | CPacked
  | BuiltIn
  | NoPerspective
  | Flat
  | Patch
  | Centroid
  | Sample
  | Invariant
  | Restrict
  | Aliased
  | Volatile
  | Constant
  | Coherent
  | NonWritable
  | NonReadable
  | Uniform
  | SaturatedConversion
  | Stream
  | Location
  | Component
  | Index
  | Binding
  | DescriptorSet
  | Offset
  | XfbBuffer
  | XfbStride
  | FuncParamAttr
  | FpRoundingMode
  | FpFastMathMode
  | LinkageAttributes
  | NoContraction
  | InputAttachmentIndex
  | Alignment
  | OverrideCoverageNv
  | PassthroughNv
  | ViewportRelativeNv
  | SecondaryViewportRelativeNv
deriving DecidableEq

/-- Modelled from the spec: the engine-side state behind the sc_compiler
handle that the decoration accessors touch (sc_internal_compiler_get_decoration
and sc_internal_compiler_set_decoration are not under src/).  Per spec section
3, the Decoration Store is a partial mapping (Id, DecorationKind) to literal,
with absence distinct from a zero value; ids are module-scoped, and a set on
an id unknown to the module fails.  The mapping is represented as an
association list whose first matching entry is the stored literal. -/
structure EngineDecorationState where
  validIds : List Nat
  entries : List ((Nat × Decoration) × Nat)
deriving DecidableEq

/-- Modelled from the spec (section 4.2): setDecoration overwrites any prior
literal for the (id, kind) pair and fails with Unhandled, not silently, if id
is invalid; no validation of the literal itself.  Wraps the veneer
Compiler::set_decoration, compiler.rs lines 133-149, which forwards to the
engine and surfaces its status. -/
def set_decoration (s : EngineDecorationState) (id : Nat) (d : Decoration)
    (argument : Nat) : Except ErrorCode EngineDecorationState :=
  if s.validIds.contains id then
    .ok { validIds := s.validIds,
          entries := ((id, d), argument) ::
            s.entries.filter (fun e => !decide (e.1 = (id, d))) }
  else .error ErrorCode.Unhandled

/-- Modelled from the spec (section 4.2): getDecoration fails if the pair is
undecorated or the id is unknown, and otherwise returns the stored literal.
Wraps the veneer Compiler::get_decoration, compiler.rs lines 120-131. -/
def get_decoration (s : EngineDecorationState) (id : Nat) (d : Decoration) :
    Except ErrorCode Nat :=
  match s.entries.find? (fun e => decide (e.1 = (id, d))) with
  | some e => .ok e.2
  | none => .error ErrorCode.Unhandled

/-- Whether the (id, kind) pair currently carries a decoration. -/
def decorated (s : EngineDecorationState) (id : Nat) (d : Decoration) : Bool :=
  s.entries.any (fun e => decide (e.1 = (id, d)))

/-! Helper lemmas -/

theorem from_raw_error (raw : Nat) (e : ErrorCode)
    (h : ExecutionModel.from_raw raw = .error e) : e = ErrorCode.Unhandled := by
  unfold ExecutionModel.from_raw at h
  split_ifs at h
  all_goals simp_all

theorem convertEntryPoint_error (i : Nat) (r : RawEntryPoint) (e : ErrorCode)
    (h : convertEntryPoint i r = .error e) : e = ErrorCode.Unhandled := by
  unfold convertEntryPoint at h
  split_ifs at h with hv
  · rcases hf : ExecutionModel.from_raw r.execution_model with e2 | m <;>
      rw [hf] at h
    · simp only [Except.error.injEq] at h
      subst h
      exact from_raw_error r.execution_model e2 hf
    · simp at h
  · simp only [Except.error.injEq] at h
    exact h.symm

theorem convertEntryPoint_ok (i : Nat) (r : RawEntryPoint) (ep : EntryPoint)
    (fs : List EpPtr) (h : convertEntryPoint i r = .ok (ep, fs)) :
    validUtf8 r.nameBytes = true ∧
      ∃ m, ExecutionModel.from_raw r.execution_model = .ok m := by
  unfold convertEntryPoint at h
  split_ifs at h with hv
  · rcases hf : ExecutionModel.from_raw r.execution_model with e2 | m <;>
      rw [hf] at h
    · simp at h
    · exact ⟨hv, m, by simp [hf]⟩

theorem collectEntryPoints_error (raws : List RawEntryPoint) :
    ∀ i : Nat,
      (∃ r ∈ raws, validUtf8 r.nameBytes = false ∨
        ExecutionModel.from_raw r.execution_model = .error ErrorCode.Unhandled) →
      (collectEntryPoints i raws).1 = .error ErrorCode.Unhandled := by
  induction raws with
  | nil => intro i h; simp at h
  | cons r rest ih =>
    intro i h
    rcases hc : convertEntryPoint i r with e | pair
    · have he : e = ErrorCode.Unhandled := convertEntryPoint_error i r e hc
      subst he
      simp [collectEntryPoints, hc]
    · obtain ⟨ep, fs⟩ := pair
      obtain ⟨hv, m, hm⟩ := convertEntryPoint_ok i r ep fs hc
      rcases h with ⟨x, hx, hbad⟩
      rcases List.mem_cons.mp hx with rfl | hx2
      · rcases hbad with hb | hb
        · rw [hv] at hb; cases hb
        · rw [hm] at hb; cases hb
      · have htail := ih (i + 1) ⟨x, hx2, hbad⟩
        rcases ht : collectEntryPoints (i + 1) rest with ⟨res, fs2⟩
        rw [ht] at htail
        simp only at htail
        subst htail
        simp [collectEntryPoints, hc, ht]

/-! Claim theorems for compile and get_entry_points -/

/-- C1: the claim says every engine-allocated name buffer and the enclosing
array buffer is released exactly once per get_entry_points call even on
failure paths.  The code violates this: on a module with one entry point
whose name bytes are not valid UTF-8, the call returns the Unhandled error
having issued no release call at all, leaking the element's name buffer and
the entry-point array (the frees at compiler.rs lines 186-189 sit after the
early returns at lines 171 and 176-178). -/
theorem get_entry_points_leak_on_failure :
    get_entry_points (.ok [{ nameBytes := [255], execution_model := 0,
                             work_group_size_x := 0, work_group_size_y := 0,
                             work_group_size_z := 0 }]) =
      (.error ErrorCode.Unhandled, []) := rfl

/-- C2: get_entry_points is all-or-nothing.  If any raw element has a name
that is not valid UTF-8 or an execution model the veneer does not recognize,
the whole call returns the Unhandled error and never a partial list. -/
theorem get_entry_points_all_or_nothing (raws : List RawEntryPoint)
    (h : ∃ r ∈ raws, validUtf8 r.nameBytes = false ∨
      ExecutionModel.from_raw r.execution_model = .error ErrorCode.Unhandled) :
    (get_entry_points (.ok raws)).1 = .error ErrorCode.Unhandled ∧
      ∀ l : List EntryPoint, (get_entry_points (.ok raws)).1 ≠ .ok l := by
  have hc := collectEntryPoints_error raws 0 h
  refine ⟨by simpa [get_entry_points] using hc, ?_⟩
  intro l hl
  rw [show (get_entry_points (.ok raws)).1 = (collectEntryPoints 0 raws).1
        from rfl, hc] at hl
  cases hl

theorem get_entry_points_all_or_nothing_witness :
    (get_entry_points (.ok [{ nameBytes := [65], execution_model := 99,
                              work_group_size_x := 0, work_group_size_y := 0,
                              work_group_size_z := 0 }])).1 =
      .error ErrorCode.Unhandled :=
  (get_entry_points_all_or_nothing
    [{ nameBytes := [65], execution_model := 99, work_group_size_x := 0,
       work_group_size_y := 0, work_group_size_z := 0 }]
    ⟨{ nameBytes := [65], execution_model := 99, work_group_size_x := 0,
       work_group_size_y := 0, work_group_size_z := 0 },
     by simp, Or.inr rfl⟩).1

/-- C4: the claim says compile frees the engine's source buffer exactly once
on every path, including the failure path where the emitted bytes are not
valid text.  The code violates this: when the engine emits bytes that are not
valid UTF-8, compile returns the Unhandled error without freeing the shader
buffer (the free at compiler.rs line 115 sits after the early return at line
112), so the failure path issues zero frees. -/
theorem compile_leak_on_invalid_text :
    compile (.ok [254]) = (.error ErrorCode.Unhandled, 0) := rfl

/-- C8: get_entry_points on a module that declares zero entry points (the
engine call succeeds and reports an empty array) succeeds with the empty
sequence. -/
theorem get_entry_points_empty :
    get_entry_points (.ok ([] : List RawEntryPoint)) = (.ok [], []) := rfl

/-- C9: converting any public execution model to the engine representation
and back is the identity. -/
theorem execution_model_roundtrip :
    ∀ m : ExecutionModel,
      ExecutionModel.from_raw (ExecutionModel.as_raw m) = .ok m := by
  intro m
  cases m <;> rfl

/-! Lemmas about the resource-category conversion -/

theorem convFails_cons (r : RawResource) (rest : List RawResource) :
    convFails (r :: rest) = (!validUtf8 r.nameBytes || convFails rest) := by
  simp [convFails]

theorem collectResources_cat (raws : List RawResource) :
    ∀ cat i : Nat, ∀ p ∈ (collectResources cat i raws).2, rptrCat p = cat := by
  induction raws with
  | nil => intro cat i p hp; simp [collectResources] at hp
  | cons r rest ih =>
    intro cat i p hp
    by_cases hv : validUtf8 r.nameBytes = true
    · have hcv : convertResource cat i r = .ok (convRes r, [RPtr.name cat i]) := by
        simp [convertResource, hv]
      rcases ht : collectResources cat (i + 1) rest with ⟨res, fs2⟩
      have hfs2 : ∀ q ∈ fs2, rptrCat q = cat := by
        intro q hq
        have := ih cat (i + 1) q
        rw [ht] at this
        exact this hq
      cases res <;>
        · simp only [collectResources, hcv, ht] at hp
          rcases List.mem_append.mp hp with hp1 | hp2
          · simp only [List.mem_singleton] at hp1
            subst hp1
            rfl
          · exact hfs2 p hp2
    · have hcv : convertResource cat i r = .error ErrorCode.Unhandled := by
        simp [convertResource, hv]
      simp [collectResources, hcv] at hp

theorem collectResources_ok (raws : List RawResource) :
    ∀ cat i : Nat, convFails raws = false →
      (collectResources cat i raws).1 = .ok (raws.map convRes) := by
  induction raws with
  | nil => intro cat i _; simp [collectResources]
  | cons r rest ih =>
    intro cat i h
    rw [convFails_cons] at h
    simp only [Bool.or_eq_false_iff, Bool.not_eq_false'] at h
    obtain ⟨hv, hrest⟩ := h
    have hcv : convertResource cat i r = .ok (convRes r, [RPtr.name cat i]) := by
      simp [convertResource, hv]
    rcases ht : collectResources cat (i + 1) rest with ⟨res, fs2⟩
    have := ih cat (i + 1) hrest
    rw [ht] at this
    simp only at this
    subst this
    simp [collectResources, hcv, ht]

theorem collectResources_err (raws : List RawResource) :
    ∀ cat i : Nat, convFails raws = true →
      (collectResources cat i raws).1 = .error ErrorCode.Unhandled := by
  induction raws with
  | nil => intro cat i h; simp [convFails] at h
  | cons r rest ih =>
    intro cat i h
    by_cases hv : validUtf8 r.nameBytes = true
    · rw [convFails_cons, hv] at h
      simp only [Bool.not_true, Bool.false_or] at h
      have hcv : convertResource cat i r = .ok (convRes r, [RPtr.name cat i]) := by
        simp [convertResource, hv]
      rcases ht : collectResources cat (i + 1) rest with ⟨res, fs2⟩
      have := ih cat (i + 1) h
      rw [ht] at this
      simp only at this
      subst this
      simp [collectResources, hcv, ht]
    · have hcv : convertResource cat i r = .error ErrorCode.Unhandled := by
        simp [convertResource, hv]
      simp [collectResources, hcv]

theorem collectResources_ok_map (raws : List RawResource) :
    ∀ cat i : Nat, ∀ l : List Resource,
      (collectResources cat i raws).1 = .ok l → l = raws.map convRes := by
  intro cat i l h
  by_cases hc : convFails raws = true
  · rw [collectResources_err raws cat i hc] at h
    cases h
  · rw [collectResources_ok raws cat i (by simpa using hc)] at h
    exact (Except.ok.inj h).symm

theorem fillResources_cat (cat : Nat) (raws : List RawResource) :
    ∀ p ∈ (fillResources cat raws).2, rptrCat p = cat := by
  intro p hp
  unfold fillResources at hp
  rcases List.mem_append.mp hp with hp1 | hp2
  · exact collectResources_cat raws cat 0 p hp1
  · simp only [List.mem_singleton] at hp2
    subst hp2
    rfl

theorem fillResources_array_mem (cat : Nat) (raws : List RawResource) :
    RPtr.array cat ∈ (fillResources cat raws).2 := by
  unfold fillResources
  simp

theorem fillResources_ok (cat : Nat) (raws : List RawResource)
    (h : convFails raws = false) :
    (fillResources cat raws).1 = .ok (raws.map convRes) :=
  collectResources_ok raws cat 0 h

theorem fillResources_err (cat : Nat) (raws : List RawResource)
    (h : convFails raws = true) :
    (fillResources cat raws).1 = .error ErrorCode.Unhandled :=
  collectResources_err raws cat 0 h

theorem fillResources_ok_map (cat : Nat) (raws : List RawResource)
    (l : List Resource) (h : (fillResources cat raws).1 = .ok l) :
    l = raws.map convRes :=
  collectResources_ok_map raws cat 0 l h

/-! Lemmas about the sequential category chain -/

theorem fillAll_error_of_fail :
    ∀ (cats : List (List RawResource)) (c : Nat),
      (∃ l ∈ cats, convFails l = true) →
      (fillAll c cats).1 = .error ErrorCode.Unhandled := by
  intro cats
  induction cats with
  | nil => intro c h; simp at h
  | cons l ls ih =>
    intro c h
    rcases hfl : fillResources c l with ⟨r, f⟩
    by_cases hcf : convFails l = true
    · have hr := fillResources_err c l hcf
      rw [hfl] at hr
      simp only at hr
      subst hr
      simp [fillAll, hfl]
    · have hr := fillResources_ok c l (by simpa using hcf)
      rw [hfl] at hr
      simp only at hr
      subst hr
      have hwit : ∃ x ∈ ls, convFails x = true := by
        rcases h with ⟨x, hx, hxf⟩
        rcases List.mem_cons.mp hx with rfl | hx2
        · exact absurd hxf hcf
        · exact ⟨x, hx2, hxf⟩
      rcases ht : fillAll (c + 1) ls with ⟨res, f2⟩
      have := ih (c + 1) hwit
      rw [ht] at this
      simp only at this
      subst this
      simp [fillAll, hfl, ht]

theorem fillAll_ok_map :
    ∀ (cats : List (List RawResource)) (c : Nat) (rss : List (List Resource)),
      (fillAll c cats).1 = .ok rss →
      rss = cats.map (fun l => l.map convRes) := by
  intro cats
  induction cats with
  | nil =>
    intro c rss h
    simp only [fillAll] at h
    simpa using (Except.ok.inj h).symm
  | cons l ls ih =>
    intro c rss h
    rcases hfl : fillResources c l with ⟨r, f⟩
    cases r with
    | error e => simp [fillAll, hfl] at h
    | ok rs =>
      rcases ht : fillAll (c + 1) ls with ⟨res, f2⟩
      cases res with
      | error e => simp [fillAll, hfl, ht] at h
      | ok rss2 =>
        simp only [fillAll, hfl, ht] at h
        have hrs : rs = l.map convRes := by
          apply fillResources_ok_map c l
          rw [hfl]
        have hrss2 : rss2 = ls.map (fun x => x.map convRes) := by
          apply ih (c + 1)
          rw [ht]
        have : rs :: rss2 = rss := Except.ok.inj h
        subst this
        simp [hrs, hrss2]

theorem fillAll_first_fail :
    ∀ (cats : List (List RawResource)) (c k : Nat),
      k < cats.length → convFails (cats.getD k []) = true →
      (∀ j, j < k → convFails (cats.getD j []) = false) →
      (fillAll c cats).1 = .error ErrorCode.Unhandled ∧
        RPtr.array (c + k) ∈ (fillAll c cats).2 ∧
        ∀ p ∈ (fillAll c cats).2, rptrCat p ≤ c + k := by
  intro cats
  induction cats with
  | nil => intro c k hk; simp at hk
  | cons l ls ih =>
    intro c k hk hfail hprev
    rcases hfl : fillResources c l with ⟨r, f⟩
    cases k with
    | zero =>
      simp only [List.getD_cons_zero] at hfail
      have hr := fillResources_err c l hfail
      rw [hfl] at hr
      simp only at hr
      subst hr
      have hmem := fillResources_array_mem c l
      have hcat := fillResources_cat c l
      rw [hfl] at hmem hcat
      refine ⟨by simp [fillAll, hfl], ?_, ?_⟩
      · simpa [fillAll, hfl] using hmem
      · intro p hp
        simp only [fillAll, hfl] at hp
        simpa using Nat.le_of_eq (hcat p hp)
    | succ k2 =>
      have hv : convFails l = false := by
        have := hprev 0 (Nat.succ_pos k2)
        simpa using this
      have hr := fillResources_ok c l hv
      rw [hfl] at hr
      simp only at hr
      subst hr
      rcases ht : fillAll (c + 1) ls with ⟨res, f2⟩
      have hih := ih (c + 1) k2 (by simpa using Nat.lt_of_succ_lt_succ hk)
        (by simpa using hfail)
        (fun j hj => by simpa using hprev (j + 1) (Nat.succ_lt_succ hj))
      rw [ht] at hih
      obtain ⟨h1, h2, h3⟩ := hih
      simp only at h1 h2 h3
      subst h1
      have hck : c + 1 + k2 = c + (k2 + 1) := by omega
      refine ⟨by simp [fillAll, hfl, ht], ?_, ?_⟩
      · simp only [fillAll, hfl, ht]
        rw [← hck]
        exact List.mem_append.mpr (Or.inr h2)
      · intro p hp
        simp only [fillAll, hfl, ht] at hp
        rcases List.mem_append.mp hp with hp1 | hp2
        · have hcat := fillResources_cat c l
          rw [hfl] at hcat
          have := hcat p hp1
          omega
        · have := h3 p hp2
          omega

/-! Bridge between the source-shaped definition and the sequential chain -/

theorem gsr_eq (raw : RawShaderResources) :
    get_shader_resources (.ok raw) =
      (Except.map mkSR (fillAll 0 (categories raw)).1,
       (fillAll 0 (categories raw)).2) := by
  rcases h0 : fillResources 0 raw.uniform_buffers with ⟨r0, f0⟩
  cases r0 with
  | error e =>
    simp [get_shader_resources, fillAll, categories, Except.map, h0]
  | ok c0 =>
    rcases h1 : fillResources 1 raw.storage_buffers with ⟨r1, f1⟩
    cases r1 with
    | error e =>
      simp [get_shader_resources, fillAll, categories, Except.map, h0, h1]
    | ok c1 =>
      rcases h2 : fillResources 2 raw.stage_inputs with ⟨r2, f2⟩
      cases r2 with
      | error e =>
        simp [get_shader_resources, fillAll, categories, Except.map, h0, h1, h2]
      | ok c2 =>
        rcases h3 : fillResources 3 raw.stage_outputs with ⟨r3, f3⟩
        cases r3 with
        | error e =>
          simp [get_shader_resources, fillAll, categories, Except.map, h0, h1, h2, h3]
        | ok c3 =>
          rcases h4 : fillResources 4 raw.subpass_inputs with ⟨r4, f4⟩
          cases r4 with
          | error e =>
            simp [get_shader_resources, fillAll, categories, Except.map, h0, h1, h2, h3, h4]
          | ok c4 =>
            rcases h5 : fillResources 5 raw.storage_images with ⟨r5, f5⟩
            cases r5 with
            | error e =>
              simp [get_shader_resources, fillAll, categories, Except.map, h0, h1, h2, h3, h4, h5]
            | ok c5 =>
              rcases h6 : fillResources 6 raw.sampled_images with ⟨r6, f6⟩
              cases r6 with
              | error e =>
                simp [get_shader_resources, fillAll, categories, Except.map, h0, h1, h2, h3, h4, h5, h6]
              | ok c6 =>
                rcases h7 : fillResources 7 raw.atomic_counters with ⟨r7, f7⟩
                cases r7 with
                | error e =>
                  simp [get_shader_resources, fillAll, categories, Except.map, h0, h1, h2, h3, h4, h5, h6, h7]
                | ok c7 =>
                  rcases h8 : fillResources 8 raw.push_constant_buffers with ⟨r8, f8⟩
                  cases r8 with
                  | error e =>
                    simp [get_shader_resources, fillAll, categories, Except.map, h0, h1, h2, h3, h4, h5, h6, h7, h8]
                  | ok c8 =>
                    rcases h9 : fillResources 9 raw.separate_images with ⟨r9, f9⟩
                    cases r9 with
                    | error e =>
                      simp [get_shader_resources, fillAll, categories, Except.map, h0, h1, h2, h3, h4, h5, h6, h7, h8, h9]
                    | ok c9 =>
                      rcases h10 : fillResources 10 raw.separate_samplers with ⟨r10, f10⟩
                      cases r10 with
                      | error e =>
                        simp [get_shader_resources, fillAll, categories, Except.map, h0, h1, h2, h3, h4, h5, h6, h7, h8, h9, h10]
                      | ok c10 =>
                        simp [get_shader_resources, fillAll, categories, Except.map, mkSR,
                          h0, h1, h2, h3, h4, h5, h6, h7, h8, h9, h10]

/-! Remaining claim theorems -/

theorem categories_length (raw : RawShaderResources) :
    (categories raw).length = 11 := rfl

theorem category_mem (raw : RawShaderResources) (k : Nat) (hk : k < 11) :
    category raw k ∈ categories raw := by
  unfold category
  interval_cases k <;> simp [categories]

/-- C6: in each of the three operations that receive strings from the engine,
a byte buffer that is not valid text makes the operation fail with Unhandled,
so no replacement text is ever produced. -/
theorem invalid_text_yields_unhandled :
    (∀ bytes : List Nat, validUtf8 bytes = false →
        (compile (.ok bytes)).1 = .error ErrorCode.Unhandled) ∧
      (∀ raws : List RawEntryPoint,
        (∃ r ∈ raws, validUtf8 r.nameBytes = false) →
        (get_entry_points (.ok raws)).1 = .error ErrorCode.Unhandled) ∧
      (∀ raw : RawShaderResources,
        (∃ k, k < 11 ∧ ∃ r ∈ category raw k, validUtf8 r.nameBytes = false) →
        (get_shader_resources (.ok raw)).1 = .error ErrorCode.Unhandled) := by
  refine ⟨?_, ?_, ?_⟩
  · intro bytes hb
    simp [compile, hb]
  · intro raws h
    have hc := collectEntryPoints_error raws 0 (by
      rcases h with ⟨r, hr, hv⟩
      exact ⟨r, hr, Or.inl hv⟩)
    simpa [get_entry_points] using hc
  · intro raw h
    rcases h with ⟨k, hk, r, hr, hv⟩
    have hcf : convFails (category raw k) = true := by
      simp only [convFails, List.any_eq_true]
      exact ⟨r, hr, by simp [hv]⟩
    have herr := fillAll_error_of_fail (categories raw) 0
      ⟨category raw k, category_mem raw k hk, hcf⟩
    rw [gsr_eq]
    simp [herr, Except.map]

/-- Raw entry point with an invalid name; only the witness below uses it. -/
def badNameEp : RawEntryPoint :=
  { nameBytes := [255], execution_model := 0, work_group_size_x := 0,
    work_group_size_y := 0, work_group_size_z := 0 }

/-- Raw resource with an invalid name; only the witness below uses it. -/
def badNameRes : RawResource :=
  { id := 9, type_id := 8, base_type_id := 7, nameBytes := [255] }

/-- Raw shader resources with an invalid name in the second category; only
the witness below uses it. -/
def badNameSR : RawShaderResources :=
  { uniform_buffers := [], storage_buffers := [badNameRes],
    stage_inputs := [], stage_outputs := [], subpass_inputs := [],
    storage_images := [], sampled_images := [], atomic_counters := [],
    push_constant_buffers := [], separate_images := [],
    separate_samplers := [] }

theorem invalid_text_yields_unhandled_witness :
    (compile (.ok [255])).1 = .error ErrorCode.Unhandled ∧
      (get_entry_points (.ok [badNameEp])).1 = .error ErrorCode.Unhandled ∧
      (get_shader_resources (.ok badNameSR)).1 = .error ErrorCode.Unhandled :=
  ⟨invalid_text_yields_unhandled.1 [255] (by decide),
   invalid_text_yields_unhandled.2.1 [badNameEp]
     ⟨badNameEp, by simp, by decide⟩,
   invalid_text_yields_unhandled.2.2 badNameSR
     ⟨1, by decide, badNameRes, by simp [category, categories, badNameSR],
      by decide⟩⟩

/-- C7: if the first failing category in get_shader_resources is category k
(k < 11 in the fixed source order), the call fails, the array buffer of
category k is still released before the error propagates, and no release work
at all is performed for categories after k. -/
theorem get_shader_resources_category_failure (raw : RawShaderResources)
    (k : Nat) (hk : k < 11) (hfail : convFails (category raw k) = true)
    (hprev : ∀ j, j < k → convFails (category raw j) = false) :
    (get_shader_resources (.ok raw)).1 = .error ErrorCode.Unhandled ∧
      RPtr.array k ∈ (get_shader_resources (.ok raw)).2 ∧
      ∀ p ∈ (get_shader_resources (.ok raw)).2, rptrCat p ≤ k := by
  have hlen : k < (categories raw).length := by
    simpa [categories_length] using hk
  obtain ⟨h1, h2, h3⟩ := fillAll_first_fail (categories raw) 0 k hlen hfail hprev
  rw [gsr_eq]
  refine ⟨by simp [h1, Except.map], by simpa using h2, ?_⟩
  intro p hp
  simp only at hp
  simpa using h3 p hp

/-- Raw shader resources whose first category fails to convert; only the
witness below uses it. -/
def failingRawSR : RawShaderResources :=
  { uniform_buffers := [{ id := 1, type_id := 2, base_type_id := 3,
                          nameBytes := [200] }],
    storage_buffers := [], stage_inputs := [], stage_outputs := [],
    subpass_inputs := [], storage_images := [], sampled_images := [],
    atomic_counters := [], push_constant_buffers := [],
    separate_images := [], separate_samplers := [] }

theorem get_shader_resources_category_failure_witness :
    (get_shader_resources (.ok failingRawSR)).1 = .error ErrorCode.Unhandled ∧
      RPtr.array 0 ∈ (get_shader_resources (.ok failingRawSR)).2 :=
  ⟨(get_shader_resources_category_failure failingRawSR 0 (by decide)
      (by decide) (fun j hj => absurd hj (Nat.not_lt_zero j))).1,
   (get_shader_resources_category_failure failingRawSR 0 (by decide)
      (by decide) (fun j hj => absurd hj (Nat.not_lt_zero j))).2.1⟩

/-- C10: when get_shader_resources succeeds, each of the eleven returned
sequences is exactly the engine's array for that category, element for element
in engine order, with id, type_id and base_type_id copied unchanged (convRes
keeps all three fields and the decoded name). -/
theorem get_shader_resources_success_fields (raw : RawShaderResources)
    (sr : ShaderResources) (fs : List RPtr)
    (h : get_shader_resources (.ok raw) = (.ok sr, fs)) :
    sr.uniform_buffers = raw.uniform_buffers.map convRes ∧
      sr.storage_buffers = raw.storage_buffers.map convRes ∧
      sr.stage_inputs = raw.stage_inputs.map convRes ∧
      sr.stage_outputs = raw.stage_outputs.map convRes ∧
      sr.subpass_inputs = raw.subpass_inputs.map convRes ∧
      sr.storage_images = raw.storage_images.map convRes ∧
      sr.sampled_images = raw.sampled_images.map convRes ∧
      sr.atomic_counters = raw.atomic_counters.map convRes ∧
      sr.push_constant_buffers = raw.push_constant_buffers.map convRes ∧
      sr.separate_images = raw.separate_images.map convRes ∧
      sr.separate_samplers = raw.separate_samplers.map convRes := by
  rw [gsr_eq] at h
  have h1 : Except.map mkSR (fillAll 0 (categories raw)).1 = .ok sr :=
    congrArg Prod.fst h
  rcases hfa : (fillAll 0 (categories raw)).1 with e | rss
  · rw [hfa] at h1
    simp [Except.map] at h1
  · rw [hfa] at h1
    simp only [Except.map] at h1
    have hsr : mkSR rss = sr := Except.ok.inj h1
    have hmap := fillAll_ok_map (categories raw) 0 rss hfa
    subst hmap
    rw [← hsr]
    simp [categories, mkSR]

/-- Raw shader resources that convert successfully; only the witness below
uses it. -/
def okRawSR : RawShaderResources :=
  { uniform_buffers := [{ id := 4, type_id := 5, base_type_id := 6,
                          nameBytes := [72] }],
    storage_buffers := [], stage_inputs := [], stage_outputs := [],
    subpass_inputs := [], storage_images := [], sampled_images := [],
    atomic_counters := [], push_constant_buffers := [],
    separate_images := [], separate_samplers := [] }

/-- The converted shader resources for okRawSR; only the witness below uses
it. -/
def okSR : ShaderResources :=
  { uniform_buffers := [{ id := 4, type_id := 5, base_type_id := 6,
                          name := [72] }],
    storage_buffers := [], stage_inputs := [], stage_outputs := [],
    subpass_inputs := [], storage_images := [], sampled_images := [],
    atomic_counters := [], push_constant_buffers := [],
    separate_images := [], separate_samplers := [] }

theorem get_shader_resources_success_fields_witness :
    okSR.uniform_buffers = okRawSR.uniform_buffers.map convRes ∧
      okSR.storage_buffers = okRawSR.storage_buffers.map convRes ∧
      okSR.stage_inputs = okRawSR.stage_inputs.map convRes ∧
      okSR.stage_outputs = okRawSR.stage_outputs.map convRes ∧
      okSR.subpass_inputs = okRawSR.subpass_inputs.map convRes ∧
      okSR.storage_images = okRawSR.storage_images.map convRes ∧
      okSR.sampled_images = okRawSR.sampled_images.map convRes ∧
      okSR.atomic_counters = okRawSR.atomic_counters.map convRes ∧
      okSR.push_constant_buffers = okRawSR.push_constant_buffers.map convRes ∧
      okSR.separate_images = okRawSR.separate_images.map convRes ∧
      okSR.separate_samplers = okRawSR.separate_samplers.map convRes :=
  get_shader_resources_success_fields okRawSR okSR
    [.name 0 0, .array 0, .array 1, .array 2, .array 3, .array 4, .array 5,
     .array 6, .array 7, .array 8, .array 9, .array 10] rfl

/-- C3: a successful setDecoration followed by getDecoration on the same
compiler returns exactly the literal just stored. -/
theorem set_then_get_decoration (s s2 : EngineDecorationState) (id : Nat)
    (d : Decoration) (lit : Nat) (h : set_decoration s id d lit = .ok s2) :
    get_decoration s2 id d = .ok lit := by
  unfold set_decoration at h
  split_ifs at h with hid
  injection h with h2
  subst h2
  simp [get_decoration, List.find?]

/-- A one-entry decoration store; only the witness below uses it. -/
def oneEntryStore : EngineDecorationState :=
  { validIds := [5], entries := [((5, Decoration.Binding), 7)] }

theorem set_then_get_decoration_witness :
    get_decoration oneEntryStore 5 Decoration.Binding = .ok 7 :=
  set_then_get_decoration { validIds := [5], entries := [] } oneEntryStore 5
    Decoration.Binding 7 rfl

/-- C5: getting a decoration for a pair that has not been decorated fails
with the Unhandled error, which is distinct from every successful read; in
particular it never succeeds with a default zero. -/
theorem get_decoration_undecorated_fails (s : EngineDecorationState)
    (id : Nat) (d : Decoration) (h : decorated s id d = false) :
    get_decoration s id d = .error ErrorCode.Unhandled ∧
      ∀ v : Nat, get_decoration s id d ≠ .ok v := by
  have hf : s.entries.find? (fun e => decide (e.1 = (id, d))) = none := by
    rw [List.find?_eq_none]
    intro x hx
    simp only [decorated, List.any_eq_false] at h
    simpa using h x hx
  have hget : get_decoration s id d = .error ErrorCode.Unhandled := by
    simp [get_decoration, hf]
  refine ⟨hget, fun v hv => ?_⟩
  rw [hget] at hv
  cases hv

theorem get_decoration_undecorated_fails_witness :
    get_decoration { validIds := [5], entries := [] } 5 Decoration.Binding =
      .error ErrorCode.Unhandled :=
  (get_decoration_undecorated_fails { validIds := [5], entries := [] } 5
    Decoration.Binding rfl).1

end SpirvCross
